import Mathlib

/-!
Verification of the invoice parsing engine of `invoice_extractor.py`.

The Python source is shallowly embedded below: pure string manipulation is
modelled on `String`/`List Char`, the per-line scanning loops of the address
extractors become explicit fuel-indexed loops over the line list, tables are
lists of rows of optional string cells, and list indexing that can raise
`IndexError` in Python is modelled in the `Except` monad.
-/

namespace InvoiceExtractor

/-! ## Python string primitives -/

/-- The ASCII whitespace characters matched by Python's regex `\s` and by
`str.strip` (the unicode classes are not modelled; the invoices are ASCII). -/
def pyIsSpace (c : Char) : Bool :=
  c = ' ' || c = '\t' || c = '\n' || c = '\r' || c = '\x0b' || c = '\x0c'

/-- One pass of `re.sub(r"\s+", " ", s)`: every maximal run of whitespace
becomes a single space.  `prevSpace` records whether the previous character
was part of a whitespace run. -/
def collapseWSAux (prevSpace : Bool) : List Char → List Char
  | [] => []
  | c :: cs =>
    if pyIsSpace c then
      if prevSpace then collapseWSAux true cs
      else ' ' :: collapseWSAux true cs
    else c :: collapseWSAux false cs

def collapseWS (l : List Char) : List Char := collapseWSAux false l

/-- Python `str.strip()` on a character list. -/
def pyStrip (l : List Char) : List Char :=
  ((l.dropWhile pyIsSpace).reverse.dropWhile pyIsSpace).reverse

/-- Python `s.strip()`. -/
def pyStripStr (s : String) : String := ⟨pyStrip s.data⟩

/-- `normalize_whitespace` from the source: `re.sub(r"\s+", " ", s).strip()`. -/
def normalize_whitespace (s : String) : String := ⟨pyStrip (collapseWS s.data)⟩

/-- `pat` occurs as a contiguous sublist of the second argument. -/
def hasInfix (pat : List Char) : List Char → Bool
  | [] => pat.isEmpty
  | c :: t => pat.isPrefixOf (c :: t) || hasInfix pat t

/-- Python `pat in hay` (case-sensitive substring test). -/
def containsStr (hay pat : String) : Bool := hasInfix pat.data hay.data

/-- Python `str.lower()` (ASCII). -/
def lowerStr (s : String) : String := ⟨s.data.map Char.toLower⟩

/-- `re.search(pat, hay, re.IGNORECASE)` for a pattern that is a literal
string: case-insensitive substring test. -/
def containsCI (hay pat : String) : Bool := containsStr (lowerStr hay) (lowerStr pat)

/-- Split a character list on a separator character (keeping empty pieces). -/
def splitOnChar (sep : Char) : List Char → List (List Char)
  | [] => [[]]
  | c :: cs =>
    let rest := splitOnChar sep cs
    if c = sep then [] :: rest
    else
      match rest with
      | [] => [[c]]
      | p :: ps => (c :: p) :: ps

/-- Python `str.splitlines()` for texts whose line separator is `"\n"`
(a trailing newline does not produce a final empty line). -/
def splitlines (s : String) : List String :=
  if s.data.isEmpty then []
  else
    let ps := (splitOnChar '\n' s.data).map (fun cs => (⟨cs⟩ : String))
    if ps.getLast? = some "" then ps.dropLast else ps

/-- Python `" ".join(l)`. -/
def joinSpace (l : List String) : String := ⟨List.intercalate [' '] (l.map String.data)⟩

/-! ## `re.split(r"LABEL\s*:\s*", line, flags=re.IGNORECASE)`

The two separators used by the Amazon parser are the literal label followed
by optional whitespace, a colon, and optional whitespace. -/

/-- Drop `label` from the front of `s`, comparing case-insensitively;
`none` if `s` does not start with `label`. -/
def dropPrefixCI : List Char → List Char → Option (List Char)
  | [], s => some s
  | _ :: _, [] => none
  | c :: cs, x :: xs => if c.toLower = x.toLower then dropPrefixCI cs xs else none

/-- Try to match `label` + `\s*` + `:` + `\s*` at the head of `s`; on success
return the remaining characters. -/
def matchSepFrom (label : List Char) (s : List Char) : Option (List Char) :=
  match dropPrefixCI label s with
  | none => none
  | some rest =>
    match rest.dropWhile pyIsSpace with
    | ':' :: rest3 => some (rest3.dropWhile pyIsSpace)
    | _ => none

/-- Left-to-right scan of `re.split`; `fuel` bounds the recursion (the input
shrinks at every step, so `fuel = s.length` is always enough). -/
def splitOnSepAux (label : List Char) : Nat → List Char → List Char → List (List Char)
  | 0, acc, rest => [acc.reverse ++ rest]
  | _ + 1, acc, [] => [acc.reverse]
  | fuel + 1, acc, c :: cs =>
    match matchSepFrom label (c :: cs) with
    | some rest => acc.reverse :: splitOnSepAux label fuel [] rest
    | none => splitOnSepAux label fuel (c :: acc) cs

/-- `re.split(r"<label>\s*:\s*", s, flags=re.IGNORECASE)`. -/
def splitOnSep (label : String) (s : String) : List String :=
  (splitOnSepAux label.data s.data.length [] s.data).map (fun cs => ⟨cs⟩)

/-- `re.split(r"Sold By\s*:\s*", line, flags=re.IGNORECASE)`. -/
def splitSoldBy (line : String) : List String := splitOnSep "Sold By" line

/-- `re.split(r"Billing Address\s*:\s*", rest, flags=re.IGNORECASE)`. -/
def splitBillingAddr (rest : String) : List String := splitOnSep "Billing Address" rest

/-! ## Vendor detector (`detect_invoice_type`) -/

inductive VendorFormat where
  | amazon
  | flipkart
  | unknown
deriving DecidableEq, Repr

/-- The Amazon signal of the detector:
`re.search(r"Amazon\.in|Sold By|Invoice Date", text, re.IGNORECASE)`. -/
def amazonSignal (text : String) : Bool :=
  containsCI text "Amazon.in" || containsCI text "Sold By" || containsCI text "Invoice Date"

/-- `detect_invoice_type` from the source. -/
def detect_invoice_type (text : String) : VendorFormat :=
  if amazonSignal text then .amazon
  else if containsCI text "Flipkart" then .flipkart
  else .unknown

/-! ## Bounded-window block scans

Each `for j in range(i+1, min(i+K, len(lines)))` look-ahead of the source is
modelled by `collectBlock lines (i+1) (min (i+K) lines.length) term`, where
`term` is the terminator test applied to the raw line.  The loop breaks on a
blank line (`lines[j].strip() == ""`) or a terminator and otherwise
accumulates `lines[j].strip()`. -/

def collectBlockAux (lines : List String) (term : String → Bool) : Nat → Nat → List String
  | 0, _ => []
  | fuel + 1, j =>
    let l := lines.getD j ""
    if pyStripStr l = "" || term l then []
    else pyStripStr l :: collectBlockAux lines term fuel (j + 1)

def collectBlock (lines : List String) (j stop : Nat) (term : String → Bool) : List String :=
  collectBlockAux lines term (stop - j) j

/-- The same accumulation expressed on the window slice itself (used to state
that a scan depends only on the lines inside its window). -/
def blockOfSlice (term : String → Bool) : List String → List String
  | [] => []
  | l :: rest => if pyStripStr l = "" || term l then [] else pyStripStr l :: blockOfSlice term rest

/-- Amazon independent seller scan (`elif "Sold By" in line`):
window `range(i+1, min(i+6, len(lines)))`, terminator `Billing Address`
(case-insensitive). -/
def amazonSellerBlockAt (lines : List String) (i : Nat) : List String :=
  collectBlock lines (i + 1) (min (i + 6) lines.length) (fun l => containsCI l "Billing Address")

/-- Continuation lines of the billing address after a combined
`Sold By ... Billing Address` line: window `range(i+1, min(i+6, len(lines)))`,
terminator `"Shipping Address" in lines[j]` (case-sensitive). -/
def amazonCombinedBillingCont (lines : List String) (i : Nat) : List String :=
  collectBlock lines (i + 1) (min (i + 6) lines.length) (fun l => containsStr l "Shipping Address")

/-- Amazon independent billing scan: window `range(i+1, min(i+8, len(lines)))`,
terminator `Shipping Address` (case-insensitive). -/
def amazonBillingBlockAt (lines : List String) (i : Nat) : List String :=
  collectBlock lines (i + 1) (min (i + 8) lines.length) (fun l => containsCI l "Shipping Address")

/-- Amazon shipping scan: window `range(i+1, min(i+8, len(lines)))`,
terminator `Order Number|Invoice Date` (case-insensitive). -/
def amazonShipBlockAt (lines : List String) (i : Nat) : List String :=
  collectBlock lines (i + 1) (min (i + 8) lines.length)
    (fun l => containsCI l "Order Number" || containsCI l "Invoice Date")

/-- Flipkart billing scan: window `range(i+1, min(i+8, len(lines)))`,
terminator `Shipping Address` (case-insensitive). -/
def flipkartBillingBlockAt (lines : List String) (i : Nat) : List String :=
  collectBlock lines (i + 1) (min (i + 8) lines.length) (fun l => containsCI l "Shipping Address")

/-- Flipkart shipping scan: window `range(i+1, min(i+8, len(lines)))`,
terminator `Order ID|Invoice Date` (case-insensitive). -/
def flipkartShipBlockAt (lines : List String) (i : Nat) : List String :=
  collectBlock lines (i + 1) (min (i + 8) lines.length)
    (fun l => containsCI l "Order ID" || containsCI l "Invoice Date")

/-- Flipkart seller scan: window `range(i+1, min(i+6, len(lines)))`,
no terminator other than a blank line. -/
def flipkartSellerBlockAt (lines : List String) (i : Nat) : List String :=
  collectBlock lines (i + 1) (min (i + 6) lines.length) (fun _ => false)

/-! ## Address extraction loops -/

/-- The three address fields written by the per-line loops of
`parse_amazon_invoice` / `parse_flipkart_invoice`. -/
structure AddrData where
  seller_details : Option String := none
  billing_address : Option String := none
  shipping_address : Option String := none
deriving DecidableEq, Repr

/-- The `if "Sold By" in line and "Billing Address" in line: ... elif
"Sold By" in line: ...` part of the Amazon loop body. -/
def amazonBranchAB (lines : List String) (d : AddrData) (i : Nat) : AddrData :=
  let line := lines.getD i ""
  if containsStr line "Sold By" && containsStr line "Billing Address" then
    match splitSoldBy line with
    | _ :: p1 :: _ =>
      match splitBillingAddr p1 with
      | [] => d
      | q0 :: qrest =>
        let d' := { d with seller_details := some (normalize_whitespace (pyStripStr q0)) }
        match qrest with
        | [] => d'
        | q1 :: _ =>
          let bp := normalize_whitespace (joinSpace (pyStripStr q1 :: amazonCombinedBillingCont lines i))
          { d' with billing_address := some bp }
    | _ => d
  else if containsStr line "Sold By" then
    let blk := amazonSellerBlockAt lines i
    if blk.isEmpty then d
    else if d.seller_details.isSome then d
    else { d with seller_details := some (normalize_whitespace (joinSpace blk)) }
  else d

/-- The `if re.search(r"Billing Address", line, re.IGNORECASE) and
"seller_details" not in data:` part of the Amazon loop body. -/
def amazonBillingScan (lines : List String) (d : AddrData) (i : Nat) : AddrData :=
  let line := lines.getD i ""
  if containsCI line "Billing Address" && d.seller_details.isNone then
    let blk := amazonBillingBlockAt lines i
    if blk.isEmpty then d
    else { d with billing_address := some (normalize_whitespace (joinSpace blk)) }
  else d

/-- The `if re.search(r"Shipping Address", line, re.IGNORECASE):` part of the
Amazon loop body. -/
def amazonShipScan (lines : List String) (d : AddrData) (i : Nat) : AddrData :=
  let line := lines.getD i ""
  if containsCI line "Shipping Address" then
    let blk := amazonShipBlockAt lines i
    if blk.isEmpty then d
    else { d with shipping_address := some (normalize_whitespace (joinSpace blk)) }
  else d

/-- One iteration of the Amazon address loop (one line). -/
def amazonStep (lines : List String) (d : AddrData) (i : Nat) : AddrData :=
  amazonShipScan lines (amazonBillingScan lines (amazonBranchAB lines d i) i) i

/-- Flipkart billing branch. -/
def flipkartBillingScan (lines : List String) (d : AddrData) (i : Nat) : AddrData :=
  let line := lines.getD i ""
  if containsCI line "Billing Address" then
    let blk := flipkartBillingBlockAt lines i
    if blk.isEmpty then d
    else { d with billing_address := some (normalize_whitespace (joinSpace blk)) }
  else d

/-- Flipkart shipping branch. -/
def flipkartShipScan (lines : List String) (d : AddrData) (i : Nat) : AddrData :=
  let line := lines.getD i ""
  if containsCI line "Shipping Address" then
    let blk := flipkartShipBlockAt lines i
    if blk.isEmpty then d
    else { d with shipping_address := some (normalize_whitespace (joinSpace blk)) }
  else d

/-- Flipkart seller branch (`re.search(r"Sold By", line, re.IGNORECASE)`). -/
def flipkartSellerScan (lines : List String) (d : AddrData) (i : Nat) : AddrData :=
  let line := lines.getD i ""
  if containsCI line "Sold By" then
    let blk := flipkartSellerBlockAt lines i
    if blk.isEmpty then d
    else { d with seller_details := some (normalize_whitespace (joinSpace blk)) }
  else d

/-- One iteration of the Flipkart address loop (one line). -/
def flipkartStep (lines : List String) (d : AddrData) (i : Nat) : AddrData :=
  flipkartSellerScan lines (flipkartShipScan lines (flipkartBillingScan lines d i) i) i

/-- `for i, line in enumerate(lines):` driver; `fuel` counts the remaining
iterations, starting at `lines.length` with `i = 0`. -/
def addrLoopAux (step : List String → AddrData → Nat → AddrData) (lines : List String) :
    Nat → AddrData → Nat → AddrData
  | 0, d, _ => d
  | fuel + 1, d, i => addrLoopAux step lines fuel (step lines d i) (i + 1)

/-- The address fields produced by the `parse_amazon_invoice` line loop. -/
def amazonAddr (lines : List String) : AddrData :=
  addrLoopAux amazonStep lines lines.length {} 0

/-- The address fields produced by the `parse_flipkart_invoice` line loop. -/
def flipkartAddr (lines : List String) : AddrData :=
  addrLoopAux flipkartStep lines lines.length {} 0

/-! ## Specification-side views used by the amended claims -/

/-- The last element of a list, or a fallback. -/
def lastOr : List String → Option String → Option String
  | [], o => o
  | b :: rest, _ => lastOr rest (some b)

/-- The successful shipping blocks, in line order: one entry per line whose
trigger fires and whose scan collects a nonempty block. -/
def shipBlocksFrom (bAt : List String → Nat → List String) (trig : String → Bool)
    (lines : List String) : Nat → Nat → List String
  | 0, _ => []
  | fuel + 1, i =>
    (if trig (lines.getD i "") && !(bAt lines i).isEmpty
     then [normalize_whitespace (joinSpace (bAt lines i))] else [])
    ++ shipBlocksFrom bAt trig lines fuel (i + 1)

def amazonShipBlocks (lines : List String) : List String :=
  shipBlocksFrom amazonShipBlockAt (fun l => containsCI l "Shipping Address") lines lines.length 0

def flipkartShipBlocks (lines : List String) : List String :=
  shipBlocksFrom flipkartShipBlockAt (fun l => containsCI l "Shipping Address") lines lines.length 0

/-! ## Line-item extraction from tables

A table is a list of rows; a row is a list of optional string cells (a cell
may be `None` in Python).  `row[idx]` raises `IndexError` when `idx` is out
of range, so the row mapper lives in `Except`. -/

inductive ExtractErr where
  | unrecognized (msg : String)
  | indexError
deriving DecidableEq, Repr

deriving instance DecidableEq for Except

/-- Python truthiness of a cell: `None` and `""` are falsy. -/
def cellTruthy : Option String → Bool
  | none => false
  | some s => !(s.data.isEmpty)

/-- `cell.lower() if cell else ""` applied to a header cell. -/
def lowerCell (c : Option String) : String := lowerStr (c.getD "")

/-- `cell or ""`. -/
def cellStr (c : Option String) : String := c.getD ""

/-- The column-role-to-index mapping built from a header row
(`idx_map` in the source). -/
structure IdxMap where
  description : Option Nat := none
  quantity : Option Nat := none
  unit_price : Option Nat := none
  total_price : Option Nat := none
deriving DecidableEq, Repr

/-- The `elif` chain classifying one (lower-cased) header cell; `p` is the
vendor's description test. -/
def stepCell (p : String → Bool) (m : IdxMap) (i : Nat) (col : String) : IdxMap :=
  if p col then { m with description := some i }
  else if containsStr col "qty" then { m with quantity := some i }
  else if containsStr col "unit price" || (containsStr col "price" && containsStr col "unit") then
    { m with unit_price := some i }
  else if containsStr col "net amount" || containsStr col "total amount" || containsStr col "amount" then
    { m with total_price := some i }
  else m

/-- `for idx, col in enumerate(header): ...` starting at index `i`. -/
def classifyFrom (p : String → Bool) (m : IdxMap) (i : Nat) : List String → IdxMap
  | [] => m
  | col :: rest => classifyFrom p (stepCell p m i col) (i + 1) rest

/-- The index of the last cell (at offsets from `i`) satisfying `q`. -/
def lastMatchIdx (q : String → Bool) (i : Nat) : List String → Option Nat
  | [] => none
  | col :: rest =>
    match lastMatchIdx q (i + 1) rest with
    | some k => some k
    | none => if q col then some i else none

/-- The effective condition under which the `elif` chain assigns the
`quantity` role to a cell. -/
def effQty (p : String → Bool) (c : String) : Bool := !p c && containsStr c "qty"

/-- The effective condition for the `unit_price` role. -/
def effUnit (p : String → Bool) (c : String) : Bool :=
  !p c && !containsStr c "qty" &&
    (containsStr c "unit price" || (containsStr c "price" && containsStr c "unit"))

/-- The effective condition for the `total_price` role. -/
def effTotal (p : String → Bool) (c : String) : Bool :=
  !p c && !containsStr c "qty" &&
    !(containsStr c "unit price" || (containsStr c "price" && containsStr c "unit")) &&
      (containsStr c "net amount" || containsStr c "total amount" || containsStr c "amount")

/-- Every assigned column index of the map is below `n`. -/
def IdxMap.allLt (m : IdxMap) (n : Nat) : Prop :=
  (∀ k, m.description = some k → k < n) ∧ (∀ k, m.quantity = some k → k < n) ∧
    (∀ k, m.unit_price = some k → k < n) ∧ (∀ k, m.total_price = some k → k < n)

/-- One extracted line item; a field is `none` iff its role has no column. -/
structure LineItem where
  description : Option String := none
  quantity : Option String := none
  unit_price : Option String := none
  total_price : Option String := none
deriving DecidableEq, Repr

/-- `row[i] or ""`, failing like Python when `i` is out of range. -/
def readCell (row : List (Option String)) (i : Nat) : Except ExtractErr String :=
  match row[i]? with
  | some c => .ok (cellStr c)
  | none => .error .indexError

/-- Read one role's value: absent role gives no field, present role reads and
normalizes the cell. -/
def readField (o : Option Nat) (row : List (Option String)) : Except ExtractErr (Option String) :=
  match o with
  | none => .ok none
  | some i =>
    match readCell row i with
    | .ok s => .ok (some (normalize_whitespace s))
    | .error e => .error e

/-- Build the item dict of one data row (roles read in source order). -/
def buildItem (m : IdxMap) (row : List (Option String)) : Except ExtractErr LineItem :=
  match readField m.description row with
  | .error e => .error e
  | .ok d =>
    match readField m.quantity row with
    | .error e => .error e
    | .ok q =>
      match readField m.unit_price row with
      | .error e => .error e
      | .ok u =>
        match readField m.total_price row with
        | .error e => .error e
        | .ok t => .ok ⟨d, q, u, t⟩

/-- `if item:` — the item dict is nonempty iff some role was assigned. -/
def itemNonempty (it : LineItem) : Bool :=
  it.description.isSome || it.quantity.isSome || it.unit_price.isSome || it.total_price.isSome

/-- The total-function view of `buildItem` used when every assigned index is
in range. -/
def itemOfRow (m : IdxMap) (row : List (Option String)) : LineItem where
  description := m.description.map (fun i => normalize_whitespace (cellStr (row.getD i none)))
  quantity := m.quantity.map (fun i => normalize_whitespace (cellStr (row.getD i none)))
  unit_price := m.unit_price.map (fun i => normalize_whitespace (cellStr (row.getD i none)))
  total_price := m.total_price.map (fun i => normalize_whitespace (cellStr (row.getD i none)))

/-- `for row in table[1:]: ...` — skip all-empty rows, build the item,
append it when nonempty. -/
def processRows (m : IdxMap) : List (List (Option String)) → Except ExtractErr (List LineItem)
  | [] => .ok []
  | row :: rest =>
    if row.any cellTruthy then
      match buildItem m row with
      | .error e => .error e
      | .ok it =>
        match processRows m rest with
        | .error e => .error e
        | .ok its => .ok (if itemNonempty it then it :: its else its)
    else processRows m rest

/-- Amazon description signal: `"description" in col`. -/
def descA (h : String) : Bool := containsStr h "description"

/-- Flipkart description signal: `"description" in col or "item" in col`. -/
def descF (h : String) : Bool := containsStr h "description" || containsStr h "item"

/-- The candidacy test of one table: nonempty, nonempty header row, a
description-like header cell and a `qty` header cell. -/
def tableCandidate (p : String → Bool) (table : List (List (Option String))) : Bool :=
  match table with
  | [] => false
  | h0 :: _ =>
    !h0.isEmpty &&
      ((h0.map lowerCell).any p && (h0.map lowerCell).any (fun h => containsStr h "qty"))

/-- The items contributed by one table. -/
def tableItems (p : String → Bool) (table : List (List (Option String))) :
    Except ExtractErr (List LineItem) :=
  match table with
  | [] => .ok []
  | h0 :: rows =>
    if h0.isEmpty then .ok []
    else if (h0.map lowerCell).any p && (h0.map lowerCell).any (fun h => containsStr h "qty") then
      processRows (classifyFrom p ⟨none, none, none, none⟩ 0 (h0.map lowerCell)) rows
    else .ok []

/-- `for table in tables:` — concatenate the items of every candidate table. -/
def parseItems (p : String → Bool) : List (List (List (Option String))) → Except ExtractErr (List LineItem)
  | [] => .ok []
  | t :: ts =>
    match tableItems p t with
    | .error e => .error e
    | .ok a =>
      match parseItems p ts with
      | .error e => .error e
      | .ok b => .ok (a ++ b)

/-! ## Documents, parsing, assembly -/

/-- A document as seen by the engine: identifier (the pdf path), extracted
text, extracted tables. -/
structure Document where
  id : String
  text : String
  tables : List (List (List (Option String)))

/-- The address fields and items extracted by a vendor parser (the single-line
regex header fields do not participate in any claim and are not modelled). -/
structure Parsed where
  addr : AddrData
  items : List LineItem
deriving DecidableEq, Repr

/-- `parse_amazon_invoice` (address loop and item tables). -/
def parse_amazon_invoice (text : String) (tables : List (List (List (Option String)))) :
    Except ExtractErr Parsed :=
  match parseItems descA tables with
  | .error e => .error e
  | .ok its => .ok ⟨amazonAddr (splitlines text), its⟩

/-- `parse_flipkart_invoice` (address loop and item tables). -/
def parse_flipkart_invoice (text : String) (tables : List (List (List (Option String)))) :
    Except ExtractErr Parsed :=
  match parseItems descF tables with
  | .error e => .error e
  | .ok its => .ok ⟨flipkartAddr (splitlines text), its⟩

/-- The metadata dict of a parse result (`{k: v for k, v in parsed.items()
if k != "items"}` restricted to the modelled fields). -/
def metadataOf (a : AddrData) : List (String × String) :=
  (match a.seller_details with | some v => [("seller_details", v)] | none => []) ++
    (match a.billing_address with | some v => [("billing_address", v)] | none => []) ++
      (match a.shipping_address with | some v => [("shipping_address", v)] | none => [])

/-- One output row: the line-item part (absent for the metadata-only row) and
the broadcast header fields. -/
structure OutRow where
  item : Option LineItem
  meta : List (String × String)
deriving DecidableEq, Repr

/-- Lines 223-230 of the source: one row per item with the metadata broadcast
onto each, or a single metadata-only row when there are no items. -/
def assembleRows (meta : List (String × String)) (items : List LineItem) : List OutRow :=
  if items.isEmpty then [⟨none, meta⟩]
  else items.map (fun it => ⟨some it, meta⟩)

/-- Check that every row of the table has the header row's length. -/
def rectTable (t : List (List (Option String))) : Bool :=
  t.all (fun row => row.length == (t.headD []).length)

def rectangularTables (ts : List (List (List (Option String)))) : Bool := ts.all rectTable

/-- `extract_invoice_to_dataframe` up to the numeric-coercion step (which is
modelled separately by `coerceColumn`): detect the vendor, fail with the
`ValueError` message naming the file when unknown, otherwise parse and
assemble. -/
def extract_invoice_to_dataframe (doc : Document) : Except ExtractErr (List OutRow) :=
  match detect_invoice_type doc.text with
  | .unknown => .error (.unrecognized ("Unknown invoice type for file " ++ doc.id))
  | .amazon =>
    match parse_amazon_invoice doc.text doc.tables with
    | .error e => .error e
    | .ok p => .ok (assembleRows (metadataOf p.addr) p.items)
  | .flipkart =>
    match parse_flipkart_invoice doc.text doc.tables with
    | .error e => .error e
    | .ok p => .ok (assembleRows (metadataOf p.addr) p.items)

/-! ## Numeric coercion (lines 231-234 of the source) -/

/-- An exact decimal number `mant / 10 ^ fracDigits`, the result of parsing a
decimal literal (floating-point rounding is not modelled; no claim depends on
it). -/
structure DecNum where
  mant : Int
  fracDigits : Nat
deriving DecidableEq, Repr

/-- A value of a coerced column: numeric or left as text. -/
inductive CellValue where
  | num (v : DecNum)
  | str (s : String)
deriving DecidableEq, Repr

/-- `.replace(r"[₹,]", "", regex=True)`: remove every rupee sign and comma. -/
def stripCurrency (s : String) : String := ⟨s.data.filter (fun c => !(c = '₹' || c = ','))⟩

def digitsVal (ds : List Char) : Nat := ds.foldl (fun n c => n * 10 + (c.toNat - 48)) 0

/-- Decimal-literal parsing approximating `pd.to_numeric` on one value:
optional sign, digits, optional fractional part. -/
def parseDecimal (s : String) : Option DecNum :=
  let signed : Bool × List Char :=
    match s.data with
    | '-' :: r => (true, r)
    | '+' :: r => (false, r)
    | cs => (false, cs)
  let ip := signed.2.takeWhile Char.isDigit
  let mag : Option DecNum :=
    match signed.2.dropWhile Char.isDigit with
    | [] => if ip.isEmpty then none else some ⟨(digitsVal ip : Int), 0⟩
    | '.' :: fr =>
      if fr.all Char.isDigit && !(ip.isEmpty && fr.isEmpty) then
        some ⟨(digitsVal ip * 10 ^ fr.length + digitsVal fr : Int), fr.length⟩
      else none
    | _ => none
  match mag with
  | none => none
  | some v => some (if signed.1 then ⟨-v.mant, v.fracDigits⟩ else v)

/-- The per-column coercion of lines 231-234: strip currency characters from
every value, then `pd.to_numeric(col, errors="ignore")` — the whole column
becomes numeric when every value parses, otherwise the whole column keeps the
stripped strings (that is what `errors="ignore"` does: on any failure it
returns its input series unchanged). -/
def coerceColumn (vals : List String) : List CellValue :=
  let stripped := vals.map stripCurrency
  if stripped.all (fun v => (parseDecimal v).isSome) then
    stripped.map (fun v => CellValue.num ((parseDecimal v).getD ⟨0, 0⟩))
  else stripped.map CellValue.str

/-! ## Lemmas about the bounded-window scans -/

theorem collectBlockAux_eq (lines : List String) (term : String → Bool) :
    ∀ fuel j, collectBlockAux lines term fuel j = blockOfSlice term ((lines.drop j).take fuel) := by
  intro fuel
  induction fuel with
  | zero => intro j; simp [collectBlockAux, blockOfSlice]
  | succ fuel ih =>
    intro j
    by_cases h : j < lines.length
    · have hg : lines.getD j "" = lines[j] := by
        rw [List.getD_eq_getElem?_getD, List.getElem?_eq_getElem h]
        rfl
      rw [List.drop_eq_getElem_cons h, List.take_succ_cons]
      simp only [collectBlockAux, blockOfSlice, hg, ih (j + 1)]
    · have hle : lines.length ≤ j := Nat.le_of_not_lt h
      have hd : lines.drop j = [] := List.drop_eq_nil_of_le hle
      have hg : lines.getD j "" = "" := by
        rw [List.getD_eq_getElem?_getD, List.getElem?_eq_none hle]
        rfl
      simp only [collectBlockAux, hg, hd, List.take_nil]
      simp [blockOfSlice]
      intro hc
      exact absurd rfl hc

/-- `collectBlock` is a function of the window slice alone: the scan reads no
line before `j` or at/after `stop`. -/
theorem collectBlock_eq_slice (lines : List String) (term : String → Bool) (j stop : Nat) :
    collectBlock lines j stop term = blockOfSlice term ((lines.drop j).take (stop - j)) :=
  collectBlockAux_eq lines term (stop - j) j

theorem blockOfSlice_length_le (term : String → Bool) :
    ∀ s : List String, (blockOfSlice term s).length ≤ s.length := by
  intro s
  induction s with
  | nil => simp [blockOfSlice]
  | cons l rest ih =>
    simp only [blockOfSlice]
    split
    · simp
    · simp only [List.length_cons]
      omega

theorem blockOfSlice_mem (term : String → Bool) :
    ∀ (s : List String) (x : String), x ∈ blockOfSlice term s →
      ∃ l, x = pyStripStr l ∧ pyStripStr l ≠ "" ∧ term l = false := by
  intro s
  induction s with
  | nil => intro x hx; simp [blockOfSlice] at hx
  | cons l rest ih =>
    intro x hx
    simp only [blockOfSlice] at hx
    split at hx
    · simp at hx
    · rename_i hcond
      rcases List.mem_cons.mp hx with hx1 | hx2
      · refine ⟨l, hx1, ?_, ?_⟩
        · intro hne
          rw [hne] at hcond
          simp at hcond
        · cases ht : term l
          · rfl
          · rw [ht] at hcond
            simp at hcond
      · exact ih x hx2

theorem collectBlock_length_le (lines : List String) (term : String → Bool) (j stop : Nat) :
    (collectBlock lines j stop term).length ≤ stop - j := by
  rw [collectBlock_eq_slice]
  calc (blockOfSlice term ((lines.drop j).take (stop - j))).length
      ≤ ((lines.drop j).take (stop - j)).length := blockOfSlice_length_le _ _
    _ ≤ stop - j := by simp [List.length_take]

/-! ## Shipping-address projections of the loop bodies -/

theorem amazonBranchAB_ship (lines : List String) (d : AddrData) (i : Nat) :
    (amazonBranchAB lines d i).shipping_address = d.shipping_address := by
  simp only [amazonBranchAB]
  repeat' split
  all_goals rfl

theorem amazonBillingScan_ship (lines : List String) (d : AddrData) (i : Nat) :
    (amazonBillingScan lines d i).shipping_address = d.shipping_address := by
  simp only [amazonBillingScan]
  repeat' split
  all_goals rfl

theorem amazonShipScan_ship (lines : List String) (d : AddrData) (i : Nat) :
    (amazonShipScan lines d i).shipping_address =
      (if containsCI (lines.getD i "") "Shipping Address" && !(amazonShipBlockAt lines i).isEmpty
       then some (normalize_whitespace (joinSpace (amazonShipBlockAt lines i)))
       else d.shipping_address) := by
  simp only [amazonShipScan]
  cases h1 : containsCI (lines.getD i "") "Shipping Address"
  · simp
  · cases h2 : (amazonShipBlockAt lines i).isEmpty
    · simp
    · simp

theorem amazonStep_ship (lines : List String) (d : AddrData) (i : Nat) :
    (amazonStep lines d i).shipping_address =
      (if containsCI (lines.getD i "") "Shipping Address" && !(amazonShipBlockAt lines i).isEmpty
       then some (normalize_whitespace (joinSpace (amazonShipBlockAt lines i)))
       else d.shipping_address) := by
  unfold amazonStep
  rw [amazonShipScan_ship, amazonBillingScan_ship, amazonBranchAB_ship]

theorem flipkartBillingScan_ship (lines : List String) (d : AddrData) (i : Nat) :
    (flipkartBillingScan lines d i).shipping_address = d.shipping_address := by
  simp only [flipkartBillingScan]
  repeat' split
  all_goals rfl

theorem flipkartSellerScan_ship (lines : List String) (d : AddrData) (i : Nat) :
    (flipkartSellerScan lines d i).shipping_address = d.shipping_address := by
  simp only [flipkartSellerScan]
  repeat' split
  all_goals rfl

theorem flipkartShipScan_ship (lines : List String) (d : AddrData) (i : Nat) :
    (flipkartShipScan lines d i).shipping_address =
      (if containsCI (lines.getD i "") "Shipping Address" && !(flipkartShipBlockAt lines i).isEmpty
       then some (normalize_whitespace (joinSpace (flipkartShipBlockAt lines i)))
       else d.shipping_address) := by
  simp only [flipkartShipScan]
  cases h1 : containsCI (lines.getD i "") "Shipping Address"
  · simp
  · cases h2 : (flipkartShipBlockAt lines i).isEmpty
    · simp
    · simp

theorem flipkartStep_ship (lines : List String) (d : AddrData) (i : Nat) :
    (flipkartStep lines d i).shipping_address =
      (if containsCI (lines.getD i "") "Shipping Address" && !(flipkartShipBlockAt lines i).isEmpty
       then some (normalize_whitespace (joinSpace (flipkartShipBlockAt lines i)))
       else d.shipping_address) := by
  unfold flipkartStep
  rw [flipkartSellerScan_ship, flipkartShipScan_ship, flipkartBillingScan_ship]

/-! ## The last successful shipping trigger wins -/

theorem lastOr_append (a b : List String) (o : Option String) :
    lastOr (a ++ b) o = lastOr b (lastOr a o) := by
  induction a generalizing o with
  | nil => rfl
  | cons x a ih => simp only [List.cons_append, lastOr]; exact ih (some x)

theorem addrLoopAux_ship (step : List String → AddrData → Nat → AddrData)
    (bAt : List String → Nat → List String) (trig : String → Bool)
    (hstep : ∀ lines d i, (step lines d i).shipping_address =
      (if trig (lines.getD i "") && !(bAt lines i).isEmpty
       then some (normalize_whitespace (joinSpace (bAt lines i)))
       else d.shipping_address))
    (lines : List String) :
    ∀ fuel i d, (addrLoopAux step lines fuel d i).shipping_address =
      lastOr (shipBlocksFrom bAt trig lines fuel i) d.shipping_address := by
  intro fuel
  induction fuel with
  | zero => intro i d; rfl
  | succ fuel ih =>
    intro i d
    show (addrLoopAux step lines fuel (step lines d i) (i + 1)).shipping_address = _
    rw [ih (i + 1) (step lines d i), hstep]
    show _ = lastOr ((if trig (lines.getD i "") && !(bAt lines i).isEmpty
        then [normalize_whitespace (joinSpace (bAt lines i))] else [])
        ++ shipBlocksFrom bAt trig lines fuel (i + 1)) d.shipping_address
    rw [lastOr_append]
    by_cases h : trig (lines.getD i "") && !(bAt lines i).isEmpty
    · simp only [h, if_true]; rfl
    · simp only [h, if_false]; rfl

theorem amazonAddr_ship (lines : List String) :
    (amazonAddr lines).shipping_address = lastOr (amazonShipBlocks lines) none :=
  addrLoopAux_ship amazonStep amazonShipBlockAt (fun l => containsCI l "Shipping Address")
    amazonStep_ship lines lines.length 0 {}

theorem flipkartAddr_ship (lines : List String) :
    (flipkartAddr lines).shipping_address = lastOr (flipkartShipBlocks lines) none :=
  addrLoopAux_ship flipkartStep flipkartShipBlockAt (fun l => containsCI l "Shipping Address")
    flipkartStep_ship lines lines.length 0 {}

/-! ## Stability and combined-line lemmas for the Amazon loop body -/

theorem amazonShipScan_seller (lines : List String) (d : AddrData) (i : Nat) :
    (amazonShipScan lines d i).seller_details = d.seller_details := by
  simp only [amazonShipScan]
  repeat' split
  all_goals rfl

theorem amazonShipScan_billing (lines : List String) (d : AddrData) (i : Nat) :
    (amazonShipScan lines d i).billing_address = d.billing_address := by
  simp only [amazonShipScan]
  repeat' split
  all_goals rfl

theorem amazonBillingScan_seller (lines : List String) (d : AddrData) (i : Nat) :
    (amazonBillingScan lines d i).seller_details = d.seller_details := by
  simp only [amazonBillingScan]
  repeat' split
  all_goals rfl

/-- The independent billing scan is a no-op once `seller_details` is set:
its guard `"seller_details" not in data` fails. -/
theorem amazonBillingScan_of_isSome (lines : List String) (d : AddrData) (i : Nat)
    (hs : d.seller_details.isSome = true) :
    amazonBillingScan lines d i = d := by
  simp only [amazonBillingScan]
  have hn : d.seller_details.isNone = false := by
    cases hopt : d.seller_details
    · rw [hopt] at hs
      simp at hs
    · rfl
  simp [hn]

/-- On a line that is not a combined `Sold By`/`Billing Address` line, the
`if`/`elif` part never changes an already-set `seller_details`
(`data.setdefault`). -/
theorem amazonBranchAB_seller_stable (lines : List String) (d : AddrData) (i : Nat)
    (hc : (containsStr (lines.getD i "") "Sold By" &&
      containsStr (lines.getD i "") "Billing Address") = false)
    (hs : d.seller_details.isSome = true) :
    (amazonBranchAB lines d i).seller_details = d.seller_details := by
  simp only [amazonBranchAB, hc]
  cases h2 : containsStr (lines.getD i "") "Sold By"
  · simp
  · cases h3 : (amazonSellerBlockAt lines i).isEmpty
    · simp [hs]
    · simp

theorem amazonBranchAB_billing_stable (lines : List String) (d : AddrData) (i : Nat)
    (hc : (containsStr (lines.getD i "") "Sold By" &&
      containsStr (lines.getD i "") "Billing Address") = false) :
    (amazonBranchAB lines d i).billing_address = d.billing_address := by
  simp only [amazonBranchAB, hc]
  cases h2 : containsStr (lines.getD i "") "Sold By"
  · simp
  · cases h3 : (amazonSellerBlockAt lines i).isEmpty
    · cases h4 : d.seller_details.isSome
      · simp
      · simp
    · simp

/-- A line without `Sold By` leaves the `if`/`elif` part inert. -/
theorem amazonBranchAB_noop (lines : List String) (d : AddrData) (i : Nat)
    (hsb : containsStr (lines.getD i "") "Sold By" = false) :
    amazonBranchAB lines d i = d := by
  simp only [amazonBranchAB, hsb]
  simp

/-- Once set, `seller_details` survives any later non-combined line. -/
theorem amazonStep_seller_stable (lines : List String) (d : AddrData) (i : Nat)
    (hc : (containsStr (lines.getD i "") "Sold By" &&
      containsStr (lines.getD i "") "Billing Address") = false)
    (hs : d.seller_details.isSome = true) :
    (amazonStep lines d i).seller_details = d.seller_details := by
  unfold amazonStep
  rw [amazonShipScan_seller, amazonBillingScan_seller, amazonBranchAB_seller_stable lines d i hc hs]

/-- Once `seller_details` is set, a non-combined line never changes
`billing_address`: the independent billing scan is guarded away. -/
theorem amazonStep_billing_stable (lines : List String) (d : AddrData) (i : Nat)
    (hc : (containsStr (lines.getD i "") "Sold By" &&
      containsStr (lines.getD i "") "Billing Address") = false)
    (hs : d.seller_details.isSome = true) :
    (amazonStep lines d i).billing_address = d.billing_address := by
  unfold amazonStep
  have h1 : (amazonBranchAB lines d i).seller_details.isSome = true := by
    rw [amazonBranchAB_seller_stable lines d i hc hs]
    exact hs
  rw [amazonShipScan_billing, amazonBillingScan_of_isSome _ _ _ h1,
    amazonBranchAB_billing_stable lines d i hc]

/-- The combined-line branch: both separators present, so the line is split
into a seller part and a billing part in one operation. -/
theorem amazonBranchAB_combined (lines : List String) (d : AddrData) (i : Nat)
    (p0 p1 : String) (ps : List String) (q0 q1 : String) (qs : List String)
    (hc : (containsStr (lines.getD i "") "Sold By" &&
      containsStr (lines.getD i "") "Billing Address") = true)
    (h1 : splitSoldBy (lines.getD i "") = p0 :: p1 :: ps)
    (h2 : splitBillingAddr p1 = q0 :: q1 :: qs) :
    amazonBranchAB lines d i =
      ⟨some (normalize_whitespace (pyStripStr q0)),
       some (normalize_whitespace (joinSpace (pyStripStr q1 :: amazonCombinedBillingCont lines i))),
       d.shipping_address⟩ := by
  simp only [amazonBranchAB, hc, h1, h2]
  simp

/-- `amazonStep` on a combined line with both separators: the seller prefix
and the billing suffix are emitted regardless of the previous state. -/
theorem amazonStep_combined (lines : List String) (d : AddrData) (i : Nat)
    (p0 p1 : String) (ps : List String) (q0 q1 : String) (qs : List String)
    (hc : (containsStr (lines.getD i "") "Sold By" &&
      containsStr (lines.getD i "") "Billing Address") = true)
    (h1 : splitSoldBy (lines.getD i "") = p0 :: p1 :: ps)
    (h2 : splitBillingAddr p1 = q0 :: q1 :: qs) :
    (amazonStep lines d i).seller_details = some (normalize_whitespace (pyStripStr q0)) ∧
      (amazonStep lines d i).billing_address =
        some (normalize_whitespace (joinSpace (pyStripStr q1 :: amazonCombinedBillingCont lines i))) := by
  unfold amazonStep
  rw [amazonBranchAB_combined lines d i p0 p1 ps q0 q1 qs hc h1 h2]
  have hx := amazonBillingScan_of_isSome lines
    (⟨some (normalize_whitespace (pyStripStr q0)),
      some (normalize_whitespace (joinSpace (pyStripStr q1 :: amazonCombinedBillingCont lines i))),
      d.shipping_address⟩ : AddrData) i rfl
  rw [hx]
  constructor
  · rw [amazonShipScan_seller]
  · rw [amazonShipScan_billing]

/-- When `seller_details` is still unset and the line is not a `Sold By` line
at all, a billing trigger with a nonempty block does run the independent
billing scan. -/
theorem amazonStep_billing_runs (lines : List String) (d : AddrData) (i : Nat)
    (hsb : containsStr (lines.getD i "") "Sold By" = false)
    (hn : d.seller_details.isNone = true)
    (hci : containsCI (lines.getD i "") "Billing Address" = true)
    (hblk : (amazonBillingBlockAt lines i).isEmpty = false) :
    (amazonStep lines d i).billing_address =
      some (normalize_whitespace (joinSpace (amazonBillingBlockAt lines i))) := by
  unfold amazonStep
  rw [amazonShipScan_billing, amazonBranchAB_noop lines d i hsb]
  simp only [amazonBillingScan, hci, hn, hblk]
  simp

/-! ## Header-cell classification: one role per cell, last match wins -/

theorem stepCell_description (p : String → Bool) (m : IdxMap) (i : Nat) (col : String) :
    (stepCell p m i col).description = (if p col = true then some i else m.description) := by
  simp only [stepCell]
  repeat' split
  all_goals simp_all

theorem stepCell_quantity (p : String → Bool) (m : IdxMap) (i : Nat) (col : String) :
    (stepCell p m i col).quantity = (if effQty p col = true then some i else m.quantity) := by
  simp only [stepCell, effQty]
  repeat' split
  all_goals simp_all

theorem stepCell_unit (p : String → Bool) (m : IdxMap) (i : Nat) (col : String) :
    (stepCell p m i col).unit_price = (if effUnit p col = true then some i else m.unit_price) := by
  simp only [stepCell, effUnit]
  repeat' split
  all_goals simp_all

theorem stepCell_total (p : String → Bool) (m : IdxMap) (i : Nat) (col : String) :
    (stepCell p m i col).total_price = (if effTotal p col = true then some i else m.total_price) := by
  simp only [stepCell, effTotal]
  repeat' split
  all_goals simp_all

/-- Generic fold characterization: a field whose per-cell update is
"overwrite when the effective condition holds" ends up holding the LAST
matching index. -/
theorem classifyFrom_field_eq (p q : String → Bool) (f : IdxMap → Option Nat)
    (hstep : ∀ m i col, f (stepCell p m i col) = (if q col = true then some i else f m)) :
    ∀ (cols : List String) (m : IdxMap) (i : Nat),
      f (classifyFrom p m i cols) =
        (match lastMatchIdx q i cols with | some k => some k | none => f m) := by
  intro cols
  induction cols with
  | nil => intro m i; rfl
  | cons col rest ih =>
    intro m i
    show f (classifyFrom p (stepCell p m i col) (i + 1) rest) = _
    rw [ih (stepCell p m i col) (i + 1)]
    simp only [lastMatchIdx]
    cases hL : lastMatchIdx q (i + 1) rest
    · rw [hstep]
      cases hq : q col
      · simp
      · simp
    · simp

theorem match_some_none (o : Option Nat) :
    (match o with | some k => some k | none => (none : Option Nat)) = o := by
  cases o <;> rfl

theorem lastMatchIdx_isSome (q : String → Bool) :
    ∀ (cols : List String) (i : Nat), cols.any q = true → (lastMatchIdx q i cols).isSome = true := by
  intro cols
  induction cols with
  | nil => intro i h; simp at h
  | cons col rest ih =>
    intro i h
    simp only [lastMatchIdx]
    cases hL : lastMatchIdx q (i + 1) rest
    · cases hq : q col
      · have hrest : rest.any q = true := by
          simp only [List.any_cons, hq, Bool.false_or] at h
          exact h
        have := ih (i + 1) hrest
        rw [hL] at this
        simp at this
      · simp [hq]
    · rfl

/-! ## Index bounds of the classification -/

theorem emptyMap_allLt (n : Nat) : IdxMap.allLt ⟨none, none, none, none⟩ n := by
  refine ⟨?_, ?_, ?_, ?_⟩ <;> intro k hk <;> simp at hk

theorem stepCell_allLt (p : String → Bool) (m : IdxMap) (i : Nat) (col : String) (n : Nat)
    (hm : IdxMap.allLt m n) (hi : i < n) : IdxMap.allLt (stepCell p m i col) n := by
  obtain ⟨h1, h2, h3, h4⟩ := hm
  refine ⟨?_, ?_, ?_, ?_⟩
  · intro k hk
    rw [stepCell_description] at hk
    by_cases hp : p col = true
    · rw [if_pos hp] at hk
      simp at hk
      omega
    · rw [if_neg hp] at hk
      exact h1 k hk
  · intro k hk
    rw [stepCell_quantity] at hk
    by_cases hp : effQty p col = true
    · rw [if_pos hp] at hk
      simp at hk
      omega
    · rw [if_neg hp] at hk
      exact h2 k hk
  · intro k hk
    rw [stepCell_unit] at hk
    by_cases hp : effUnit p col = true
    · rw [if_pos hp] at hk
      simp at hk
      omega
    · rw [if_neg hp] at hk
      exact h3 k hk
  · intro k hk
    rw [stepCell_total] at hk
    by_cases hp : effTotal p col = true
    · rw [if_pos hp] at hk
      simp at hk
      omega
    · rw [if_neg hp] at hk
      exact h4 k hk

theorem classifyFrom_allLt (p : String → Bool) :
    ∀ (cols : List String) (m : IdxMap) (i n : Nat),
      IdxMap.allLt m n → i + cols.length ≤ n → IdxMap.allLt (classifyFrom p m i cols) n := by
  intro cols
  induction cols with
  | nil => intro m i n hm _; exact hm
  | cons col rest ih =>
    intro m i n hm hlen
    show IdxMap.allLt (classifyFrom p (stepCell p m i col) (i + 1) rest) n
    have hcons : (col :: rest).length = rest.length + 1 := by simp
    refine ih _ _ _ (stepCell_allLt p m i col n hm ?_) ?_
    · rw [hcons] at hlen
      omega
    · rw [hcons] at hlen
      omega

/-! ## Row mapping -/

theorem readField_ok (o : Option Nat) (row : List (Option String))
    (h : ∀ k, o = some k → k < row.length) :
    readField o row = .ok (o.map (fun i => normalize_whitespace (cellStr (row.getD i none)))) := by
  cases o with
  | none => rfl
  | some i =>
    have hi : i < row.length := h i rfl
    simp only [readField, readCell, List.getElem?_eq_getElem hi, Option.map]
    rw [List.getD_eq_getElem?_getD, List.getElem?_eq_getElem hi]
    rfl

theorem buildItem_ok (m : IdxMap) (row : List (Option String)) (h : IdxMap.allLt m row.length) :
    buildItem m row = .ok (itemOfRow m row) := by
  obtain ⟨h1, h2, h3, h4⟩ := h
  simp only [buildItem, readField_ok _ _ h1, readField_ok _ _ h2, readField_ok _ _ h3,
    readField_ok _ _ h4, itemOfRow]

theorem itemOfRow_nonempty (m : IdxMap) (row : List (Option String))
    (hd : m.description.isSome = true) : itemNonempty (itemOfRow m row) = true := by
  simp only [itemNonempty, itemOfRow]
  cases ho : m.description
  · rw [ho] at hd
    simp at hd
  · simp

theorem processRows_eq (m : IdxMap) :
    ∀ rows : List (List (Option String)),
      (∀ row ∈ rows, IdxMap.allLt m row.length) → m.description.isSome = true →
      processRows m rows = .ok ((rows.filter (fun r => r.any cellTruthy)).map (itemOfRow m)) := by
  intro rows
  induction rows with
  | nil => intro _ _; rfl
  | cons row rest ih =>
    intro hb hd
    have hrow := hb row (List.mem_cons_self row rest)
    have hrest : ∀ r ∈ rest, IdxMap.allLt m r.length := fun r hr => hb r (List.mem_cons_of_mem _ hr)
    simp only [processRows]
    cases ha : row.any cellTruthy
    · rw [ih hrest hd]
      simp [List.filter_cons, ha]
    · rw [buildItem_ok m row hrow, ih hrest hd]
      simp [List.filter_cons, ha, itemOfRow_nonempty m row hd]

theorem processRows_ok (m : IdxMap) :
    ∀ rows : List (List (Option String)),
      (∀ row ∈ rows, IdxMap.allLt m row.length) → ∃ its, processRows m rows = .ok its := by
  intro rows
  induction rows with
  | nil => intro _; exact ⟨[], rfl⟩
  | cons row rest ih =>
    intro hb
    have hrow := hb row (List.mem_cons_self row rest)
    have hrest : ∀ r ∈ rest, IdxMap.allLt m r.length := fun r hr => hb r (List.mem_cons_of_mem _ hr)
    obtain ⟨its, hits⟩ := ih hrest
    simp only [processRows]
    cases ha : row.any cellTruthy
    · exact ⟨its, hits⟩
    · rw [buildItem_ok m row hrow, hits]
      exact ⟨_, rfl⟩

/-! ## Tables -/

theorem tableItems_nonCandidate (p : String → Bool) (table : List (List (Option String)))
    (h : tableCandidate p table = false) : tableItems p table = .ok [] := by
  cases table with
  | nil => rfl
  | cons h0 rows =>
    simp only [tableCandidate] at h
    simp only [tableItems]
    split
    · rfl
    · split
      · simp_all
      · rfl

theorem tableItems_candidate_eq (p : String → Bool) (h0 : List (Option String))
    (rows : List (List (Option String)))
    (hcand : tableCandidate p (h0 :: rows) = true)
    (hrect : rectTable (h0 :: rows) = true) :
    tableItems p (h0 :: rows) =
      .ok ((rows.filter (fun r => r.any cellTruthy)).map
        (itemOfRow (classifyFrom p ⟨none, none, none, none⟩ 0 (h0.map lowerCell)))) := by
  simp only [tableCandidate] at hcand
  have hne : h0.isEmpty = false := by
    cases hie : h0.isEmpty
    · rfl
    · rw [hie] at hcand
      simp at hcand
  have hx : ((h0.map lowerCell).any p &&
      (h0.map lowerCell).any fun hh => containsStr hh "qty") = true := by
    rw [hne] at hcand
    simpa using hcand
  have hanyp : (h0.map lowerCell).any p = true := by
    cases h1 : (h0.map lowerCell).any p
    · rw [h1] at hx
      simp at hx
    · rfl
  have hd : (classifyFrom p ⟨none, none, none, none⟩ 0 (h0.map lowerCell)).description.isSome = true := by
    rw [classifyFrom_field_eq p p (fun m => m.description) (stepCell_description p)]
    cases hL : lastMatchIdx p 0 (h0.map lowerCell)
    · have := lastMatchIdx_isSome p (h0.map lowerCell) 0 hanyp
      rw [hL] at this
      simp at this
    · rfl
  have hb : ∀ row ∈ rows,
      IdxMap.allLt (classifyFrom p ⟨none, none, none, none⟩ 0 (h0.map lowerCell)) row.length := by
    intro row hr
    have hlen : row.length = h0.length := by
      have := (List.all_eq_true.mp hrect) row (List.mem_cons_of_mem _ hr)
      simpa using this
    refine classifyFrom_allLt p _ _ _ _ (emptyMap_allLt _) ?_
    simp [hlen]
  simp only [tableItems, hne, hx]
  simp only [Bool.false_eq_true, if_false, if_true]
  exact processRows_eq _ rows hb hd

theorem tableItems_ok (p : String → Bool) (t : List (List (Option String)))
    (h : rectTable t = true) : ∃ its, tableItems p t = .ok its := by
  cases hc : tableCandidate p t
  · exact ⟨[], tableItems_nonCandidate p t hc⟩
  · cases t with
    | nil => simp [tableCandidate] at hc
    | cons h0 rows => exact ⟨_, tableItems_candidate_eq p h0 rows hc h⟩

theorem parseItems_ok (p : String → Bool) :
    ∀ tables : List (List (List (Option String))),
      rectangularTables tables = true → ∃ its, parseItems p tables = .ok its := by
  intro tables
  induction tables with
  | nil => intro _; exact ⟨[], rfl⟩
  | cons t ts ih =>
    intro h
    simp only [rectangularTables, List.all_cons, Bool.and_eq_true] at h
    obtain ⟨a, ha⟩ := tableItems_ok p t h.1
    obtain ⟨b, hb⟩ := ih h.2
    refine ⟨a ++ b, ?_⟩
    simp only [parseItems, ha, hb]

theorem parse_amazon_ok (text : String) (tables : List (List (List (Option String))))
    (h : rectangularTables tables = true) :
    ∃ res, parse_amazon_invoice text tables = .ok res := by
  obtain ⟨its, hits⟩ := parseItems_ok descA tables h
  refine ⟨⟨amazonAddr (splitlines text), its⟩, ?_⟩
  simp only [parse_amazon_invoice, hits]

theorem parse_flipkart_ok (text : String) (tables : List (List (List (Option String))))
    (h : rectangularTables tables = true) :
    ∃ res, parse_flipkart_invoice text tables = .ok res := by
  obtain ⟨its, hits⟩ := parseItems_ok descF tables h
  refine ⟨⟨flipkartAddr (splitlines text), its⟩, ?_⟩
  simp only [parse_flipkart_invoice, hits]

end InvoiceExtractor

namespace InvoiceExtractor

/-! ## Claims -/

/-- Claim C1: the detector returns Amazon whenever the text contains
"Amazon.in", "Sold By" or "Invoice Date" (case-insensitive); only if none of
those match and the text contains "Flipkart" does it return Flipkart;
otherwise Unknown.  In particular Amazon wins when both signal sets occur. -/
theorem C1_detector_order (text : String) :
    (amazonSignal text = true → detect_invoice_type text = .amazon) ∧
      (amazonSignal text = false → containsCI text "Flipkart" = true →
        detect_invoice_type text = .flipkart) ∧
      (amazonSignal text = false → containsCI text "Flipkart" = false →
        detect_invoice_type text = .unknown) ∧
      (amazonSignal text = true → containsCI text "Flipkart" = true →
        detect_invoice_type text = .amazon) := by
  refine ⟨?_, ?_, ?_, ?_⟩
  · intro h
    simp [detect_invoice_type, h]
  · intro h1 h2
    simp [detect_invoice_type, h1, h2]
  · intro h1 h2
    simp [detect_invoice_type, h1, h2]
  · intro h1 _
    simp [detect_invoice_type, h1]

/-- Claim C1 witness: the three detector outcomes at concrete texts. -/
theorem C1_detector_order_witness :
    detect_invoice_type "Sold By Flipkart" = .amazon ∧
      detect_invoice_type "shop at Flipkart" = .flipkart ∧
      detect_invoice_type "hello" = .unknown :=
  ⟨(C1_detector_order "Sold By Flipkart").2.2.2 (by decide) (by decide),
   (C1_detector_order "shop at Flipkart").2.1 (by decide) (by decide),
   (C1_detector_order "hello").2.2.1 (by decide) (by decide)⟩

/-- Claim C2: for a document with rectangular tables, assembly fails exactly
when the detector returns Unknown, the failure is the unrecognized-format
error naming the document identifier, and every Amazon- or
Flipkart-classified document assembles without any error. -/
theorem C2_only_failure_unknown (doc : Document)
    (hrect : rectangularTables doc.tables = true) :
    (detect_invoice_type doc.text = .unknown →
      extract_invoice_to_dataframe doc =
        .error (.unrecognized ("Unknown invoice type for file " ++ doc.id))) ∧
      (detect_invoice_type doc.text ≠ .unknown →
        ∃ rows, extract_invoice_to_dataframe doc = .ok rows) := by
  constructor
  · intro h
    simp only [extract_invoice_to_dataframe, h]
  · intro h
    cases hdet : detect_invoice_type doc.text with
    | unknown => exact absurd hdet h
    | amazon =>
      obtain ⟨res, hres⟩ := parse_amazon_ok doc.text doc.tables hrect
      refine ⟨assembleRows (metadataOf res.addr) res.items, ?_⟩
      simp only [extract_invoice_to_dataframe, hdet, hres]
    | flipkart =>
      obtain ⟨res, hres⟩ := parse_flipkart_ok doc.text doc.tables hrect
      refine ⟨assembleRows (metadataOf res.addr) res.items, ?_⟩
      simp only [extract_invoice_to_dataframe, hdet, hres]

/-- Claim C2 witness: a signal-free document fails with the error naming its
identifier, and a Flipkart document assembles successfully. -/
theorem C2_only_failure_unknown_witness :
    extract_invoice_to_dataframe ⟨"x.pdf", "nothing here", []⟩ =
        .error (.unrecognized "Unknown invoice type for file x.pdf") ∧
      ∃ rows, extract_invoice_to_dataframe ⟨"y.pdf", "shop at Flipkart", []⟩ = .ok rows :=
  ⟨(C2_only_failure_unknown ⟨"x.pdf", "nothing here", []⟩ (by decide)).1 (by decide),
   (C2_only_failure_unknown ⟨"y.pdf", "shop at Flipkart", []⟩ (by decide)).2 (by decide)⟩

/-- Claim C3 counterexample: two successful `Shipping Address` triggers in the
Amazon parser; the final value is the second trigger's block "BBB", not the
first trigger's block "AAA" — the first successful extraction does NOT win. -/
theorem C3_first_wins_counterexample :
    (amazonAddr ["Shipping Address", "AAA", "", "Shipping Address", "BBB"]).shipping_address =
        some "BBB" ∧
      (some "BBB" : Option String) ≠ some "AAA" := by
  constructor
  · decide
  · decide

/-- Claim C3 (amended): address fields are not first-wins: for
`shipping_address` in both parsers the final value is the block of the LAST
successful trigger; only `seller_details` in the Amazon parser, once set, is
preserved by every later line that is not a combined
`Sold By`/`Billing Address` line (the independent seller scan uses
`setdefault`). -/
theorem C3_last_trigger_wins :
    (∀ lines, (amazonAddr lines).shipping_address = lastOr (amazonShipBlocks lines) none) ∧
      (∀ lines, (flipkartAddr lines).shipping_address = lastOr (flipkartShipBlocks lines) none) ∧
      (∀ lines d i, d.seller_details.isSome = true →
        (containsStr (lines.getD i "") "Sold By" &&
          containsStr (lines.getD i "") "Billing Address") = false →
        (amazonStep lines d i).seller_details = d.seller_details) :=
  ⟨amazonAddr_ship, flipkartAddr_ship,
   fun lines d i hs hc => amazonStep_seller_stable lines d i hc hs⟩

/-- Claim C3 witness: the last-trigger law evaluated on the two-trigger text,
and stability of a set seller field on a plain line. -/
theorem C3_last_trigger_wins_witness :
    (amazonAddr ["Shipping Address", "AAA", "", "Shipping Address", "BBB"]).shipping_address =
        lastOr (amazonShipBlocks ["Shipping Address", "AAA", "", "Shipping Address", "BBB"]) none ∧
      (amazonStep ["plain line"] ⟨some "S", none, none⟩ 0).seller_details = some "S" :=
  ⟨C3_last_trigger_wins.1 ["Shipping Address", "AAA", "", "Shipping Address", "BBB"],
   C3_last_trigger_wins.2.2 ["plain line"] ⟨some "S", none, none⟩ 0 (by decide) (by decide)⟩

/-- Claim C4 counterexample: the Amazon shipping scan accumulates 6 lines
after its trigger line, exceeding the claimed 5-line bound for the
shipping-after-Amazon-trigger scan. -/
theorem C4_window_counterexample :
    (amazonShipBlockAt ["Shipping Address", "a", "b", "c", "d", "e", "f"] 0).length = 6 ∧
      ¬((amazonShipBlockAt ["Shipping Address", "a", "b", "c", "d", "e", "f"] 0).length ≤ 5) := by
  constructor
  · decide
  · decide

/-- Claim C4 (amended): the seller scans and the combined-line billing
continuation accumulate at most 5 lines after the trigger, the independent
billing and shipping scans at most 7 (the source windows are
`range(i+1, min(i+6, len))` and `range(i+1, min(i+8, len))`); a scan is a
function of the window slice alone (it never reads a line outside the
window), and no accumulated line is blank (the scan stops at the first blank
line or terminator). -/
theorem C4_window_bounds :
    (∀ lines i, (amazonSellerBlockAt lines i).length ≤ 5 ∧
        (amazonCombinedBillingCont lines i).length ≤ 5 ∧
        (flipkartSellerBlockAt lines i).length ≤ 5 ∧
        (amazonBillingBlockAt lines i).length ≤ 7 ∧
        (amazonShipBlockAt lines i).length ≤ 7 ∧
        (flipkartBillingBlockAt lines i).length ≤ 7 ∧
        (flipkartShipBlockAt lines i).length ≤ 7) ∧
      (∀ term lines j stop, collectBlock lines j stop term =
        blockOfSlice term ((lines.drop j).take (stop - j))) ∧
      (∀ term s x, x ∈ blockOfSlice term s → x ≠ "") := by
  refine ⟨?_, ?_, ?_⟩
  · have hb : ∀ (lines : List String) (i K : Nat) (term : String → Bool),
        (collectBlock lines (i + 1) (min (i + K) lines.length) term).length ≤ K - 1 := by
      intro lines i K term
      have h1 := collectBlock_length_le lines term (i + 1) (min (i + K) lines.length)
      omega
    intro lines i
    exact ⟨hb lines i 6 _, hb lines i 6 _, hb lines i 6 _, hb lines i 8 _,
      hb lines i 8 _, hb lines i 8 _, hb lines i 8 _⟩
  · intro term lines j stop
    exact collectBlock_eq_slice lines term j stop
  · intro term s x hx
    obtain ⟨l, rfl, hne, _⟩ := blockOfSlice_mem term s x hx
    exact hne

/-- Claim C4 witness: a bound instance and a non-blank accumulated line. -/
theorem C4_window_bounds_witness :
    (amazonSellerBlockAt ["Sold By", "x"] 0).length ≤ 5 ∧
      ("x" : String) ≠ "" :=
  ⟨(C4_window_bounds.1 ["Sold By", "x"] 0).1,
   C4_window_bounds.2.2 (fun _ => false) ["x"] "x" (by decide)⟩

/-- Claim C5 counterexample: a line containing both "Sold By" and
"Billing Address" but no colon after "Sold By" is NOT split: the combined
operation sets neither seller details nor billing address. -/
theorem C5_combined_counterexample :
    containsStr "Sold By Foo Billing Address Bar" "Sold By" = true ∧
      containsStr "Sold By Foo Billing Address Bar" "Billing Address" = true ∧
      amazonAddr ["Sold By Foo Billing Address Bar"] = ⟨none, none, none⟩ := by
  refine ⟨by decide, by decide, by decide⟩

/-- Claim C5 (amended): when a line case-sensitively contains both "Sold By"
and "Billing Address" AND the regex separators (label, optional whitespace,
colon) both match, the line is split in one operation — the text between
"Sold By:" and "Billing Address:" becomes the seller details and the
remainder (with its bounded continuation) becomes the billing address,
preempting the independent scans on that line; on non-combined lines the
independent billing scan runs exactly when seller details are unset. -/
theorem C5_combined_split :
    (∀ lines d i p0 p1 ps q0 q1 qs,
      (containsStr (lines.getD i "") "Sold By" &&
        containsStr (lines.getD i "") "Billing Address") = true →
      splitSoldBy (lines.getD i "") = p0 :: p1 :: ps →
      splitBillingAddr p1 = q0 :: q1 :: qs →
      (amazonStep lines d i).seller_details = some (normalize_whitespace (pyStripStr q0)) ∧
        (amazonStep lines d i).billing_address =
          some (normalize_whitespace (joinSpace
            (pyStripStr q1 :: amazonCombinedBillingCont lines i)))) ∧
      (∀ lines d i, d.seller_details.isSome = true →
        (containsStr (lines.getD i "") "Sold By" &&
          containsStr (lines.getD i "") "Billing Address") = false →
        (amazonStep lines d i).billing_address = d.billing_address) ∧
      (∀ lines d i, containsStr (lines.getD i "") "Sold By" = false →
        d.seller_details.isNone = true →
        containsCI (lines.getD i "") "Billing Address" = true →
        (amazonBillingBlockAt lines i).isEmpty = false →
        (amazonStep lines d i).billing_address =
          some (normalize_whitespace (joinSpace (amazonBillingBlockAt lines i)))) :=
  ⟨fun lines d i p0 p1 ps q0 q1 qs hc h1 h2 =>
      amazonStep_combined lines d i p0 p1 ps q0 q1 qs hc h1 h2,
   fun lines d i hs hc => amazonStep_billing_stable lines d i hc hs,
   fun lines d i hsb hn hci hblk => amazonStep_billing_runs lines d i hsb hn hci hblk⟩

/-- Claim C5 witness: the combined split on a concrete line with both
separators. -/
theorem C5_combined_split_witness :
    (amazonStep ["Sold By: Foo Billing Address: Bar"] ⟨none, none, none⟩ 0).seller_details =
        some (normalize_whitespace (pyStripStr "Foo ")) ∧
      (amazonStep ["Sold By: Foo Billing Address: Bar"] ⟨none, none, none⟩ 0).billing_address =
        some (normalize_whitespace (joinSpace (pyStripStr "Bar" ::
          amazonCombinedBillingCont ["Sold By: Foo Billing Address: Bar"] 0))) :=
  C5_combined_split.1 ["Sold By: Foo Billing Address: Bar"] ⟨none, none, none⟩ 0
    "" "Foo Billing Address: Bar" [] "Foo " "Bar" [] (by decide) (by decide) (by decide)

/-- Claim C6: a table yields items only if its lower-cased header has a
description-like cell (for Flipkart also "item") AND a cell containing
"qty"; any non-candidate table contributes zero items, for both vendors. -/
theorem C6_candidate_required (table : List (List (Option String))) :
    (tableCandidate descA table = false → tableItems descA table = .ok []) ∧
      (tableCandidate descF table = false → tableItems descF table = .ok []) :=
  ⟨tableItems_nonCandidate descA table, tableItems_nonCandidate descF table⟩

/-- Claim C6 witness: a table whose header has "Qty" but no description-like
cell produces zero items. -/
theorem C6_candidate_required_witness :
    tableItems descA [[some "Qty", some "price"], [some "1", some "2"]] = .ok [] :=
  (C6_candidate_required [[some "Qty", some "price"], [some "1", some "2"]]).1 (by decide)

/-- Claim C7 counterexample: in a candidate table, a data row whose only
non-empty cell sits in an unclassified column still produces a LineItem
(with empty description and quantity strings) — refuting "a row produces a
LineItem iff at least one role column yields a non-empty value". -/
theorem C7_role_value_counterexample :
    tableItems descA [[some "Description", some "Qty", some "Note"], [none, none, some "x"]] =
        .ok [⟨some "", some "", none, none⟩] ∧
      (Except.ok [(⟨some "", some "", none, none⟩ : LineItem)] :
          Except ExtractErr (List LineItem)) ≠ .ok [] := by
  constructor
  · decide
  · decide

/-- Claim C7 (amended): in a candidate rectangular table, a data row is
skipped iff every cell is empty/absent; every other row produces exactly one
LineItem (candidate tables always assign the description role, so the item
dict is never empty, even when every role column yields the empty string). -/
theorem C7_row_kept_iff_nonempty (p : String → Bool) (h0 : List (Option String))
    (rows : List (List (Option String)))
    (hcand : tableCandidate p (h0 :: rows) = true)
    (hrect : rectTable (h0 :: rows) = true) :
    tableItems p (h0 :: rows) =
      .ok ((rows.filter (fun r => r.any cellTruthy)).map
        (itemOfRow (classifyFrom p ⟨none, none, none, none⟩ 0 (h0.map lowerCell)))) :=
  tableItems_candidate_eq p h0 rows hcand hrect

/-- Claim C7 witness: one kept row, one skipped all-empty row. -/
theorem C7_row_kept_iff_nonempty_witness :
    tableItems descA [[some "Description", some "Qty"], [some "Widget", some "2"], [none, none]] =
      .ok (([[some "Widget", some "2"], [none, none]].filter
          (fun r => r.any cellTruthy)).map
        (itemOfRow (classifyFrom descA ⟨none, none, none, none⟩ 0
          ([some "Description", some "Qty"].map lowerCell)))) :=
  C7_row_kept_iff_nonempty descA [some "Description", some "Qty"]
    [[some "Widget", some "2"], [none, none]] (by decide) (by decide)

/-- Claim C8: with a non-empty item list the assembler emits one row per item
and broadcasts the identical header-field set onto every row; with an empty
item list it emits exactly one header-only row. -/
theorem C8_broadcast (meta : List (String × String)) (items : List LineItem) :
    (items = [] → assembleRows meta items = [⟨none, meta⟩]) ∧
      (items ≠ [] →
        (assembleRows meta items).length = items.length ∧
          (∀ r ∈ assembleRows meta items, r.meta = meta) ∧
          (assembleRows meta items).map OutRow.item = items.map some) := by
  constructor
  · intro h
    subst h
    rfl
  · intro h
    have hne : items.isEmpty = false := by
      cases items
      · exact absurd rfl h
      · rfl
    refine ⟨?_, ?_, ?_⟩
    · simp [assembleRows, hne]
    · intro r hr
      simp only [assembleRows, hne, Bool.false_eq_true, if_false] at hr
      obtain ⟨it, _, rfl⟩ := List.mem_map.mp hr
      rfl
    · simp [assembleRows, hne, List.map_map, Function.comp]

/-- Claim C8 witness: the empty-items row and a two-item broadcast. -/
theorem C8_broadcast_witness :
    assembleRows [("order_id", "OD1")] [] = [⟨none, [("order_id", "OD1")]⟩] ∧
      (assembleRows [("a", "b")]
        [⟨some "W", none, none, none⟩, ⟨some "V", none, none, none⟩]).length = 2 :=
  ⟨(C8_broadcast [("order_id", "OD1")] []).1 rfl,
   ((C8_broadcast [("a", "b")]
      [⟨some "W", none, none, none⟩, ⟨some "V", none, none, none⟩]).2 (by decide)).1⟩

/-- Claim C9 counterexample: the column ["₹2,0", "abc"] — stripping succeeds
and "20" parses numerically, yet because a sibling value fails, the whole
column stays textual; moreover the retained string is the stripped "20", not
the original "₹2,0". -/
theorem C9_coercion_counterexample :
    coerceColumn ["₹2,0", "abc"] = [.str "20", .str "abc"] ∧
      (parseDecimal (stripCurrency "₹2,0")).isSome = true ∧
      (CellValue.str "20" : CellValue) ≠ .str "₹2,0" := by
  refine ⟨by decide, by decide, by decide⟩

/-- Claim C9 (amended): the coercion step first strips rupee signs and commas
from every value (permanently), then coerces per COLUMN: if every stripped
value parses, the whole column becomes numeric; if any value fails, every
value of the column is retained as its stripped string (`errors="ignore"`
returns the input column unchanged); the step is a total function and never
raises. -/
theorem C9_column_coercion (vals : List String) :
    ((∀ v ∈ vals, (parseDecimal (stripCurrency v)).isSome = true) →
      coerceColumn vals =
        vals.map (fun v => CellValue.num ((parseDecimal (stripCurrency v)).getD ⟨0, 0⟩))) ∧
      ((∃ v ∈ vals, (parseDecimal (stripCurrency v)).isSome = false) →
        coerceColumn vals = vals.map (fun v => CellValue.str (stripCurrency v))) := by
  constructor
  · intro h
    have hall : (vals.map stripCurrency).all (fun v => (parseDecimal v).isSome) = true := by
      rw [List.all_eq_true]
      intro v hv
      obtain ⟨w, hw, rfl⟩ := List.mem_map.mp hv
      exact h w hw
    simp [coerceColumn, hall, List.map_map, Function.comp]
  · intro h
    obtain ⟨v, hv, hfail⟩ := h
    have hall : (vals.map stripCurrency).all (fun v => (parseDecimal v).isSome) = false := by
      cases hA : (vals.map stripCurrency).all (fun v => (parseDecimal v).isSome)
      · rfl
      · exfalso
        have := (List.all_eq_true.mp hA) (stripCurrency v) (List.mem_map_of_mem _ hv)
        rw [hfail] at this
        exact Bool.false_ne_true this
    simp [coerceColumn, hall, List.map_map, Function.comp]

/-- Claim C9 witness: an all-numeric column and a mixed column. -/
theorem C9_column_coercion_witness :
    coerceColumn ["₹1,234", "56.7"] = [.num ⟨1234, 0⟩, .num ⟨567, 1⟩] ∧
      coerceColumn ["2", "abc"] = [.str "2", .str "abc"] := by
  constructor
  · have h := (C9_column_coercion ["₹1,234", "56.7"]).1 (by decide)
    rw [h]
    decide
  · have h := (C9_column_coercion ["2", "abc"]).2 ⟨"abc", by decide, by decide⟩
    rw [h]
    decide

/-- Claim C10: each header cell is assigned at most one role (a
description-matching cell only sets `description`), and every role ends up
mapped to the LAST header cell whose effective condition matches — so items
read each role from the rightmost matching column. -/
theorem C10_last_column_wins (p : String → Bool) (header : List String) :
    (classifyFrom p ⟨none, none, none, none⟩ 0 header).description =
        lastMatchIdx p 0 header ∧
      (classifyFrom p ⟨none, none, none, none⟩ 0 header).quantity =
        lastMatchIdx (effQty p) 0 header ∧
      (classifyFrom p ⟨none, none, none, none⟩ 0 header).unit_price =
        lastMatchIdx (effUnit p) 0 header ∧
      (classifyFrom p ⟨none, none, none, none⟩ 0 header).total_price =
        lastMatchIdx (effTotal p) 0 header ∧
      (∀ m i col, p col = true → stepCell p m i col = { m with description := some i }) := by
  refine ⟨?_, ?_, ?_, ?_, ?_⟩
  · rw [classifyFrom_field_eq p p (fun m => m.description) (stepCell_description p)]
    cases lastMatchIdx p 0 header <;> rfl
  · rw [classifyFrom_field_eq p (effQty p) (fun m => m.quantity) (stepCell_quantity p)]
    cases lastMatchIdx (effQty p) 0 header <;> rfl
  · rw [classifyFrom_field_eq p (effUnit p) (fun m => m.unit_price) (stepCell_unit p)]
    cases lastMatchIdx (effUnit p) 0 header <;> rfl
  · rw [classifyFrom_field_eq p (effTotal p) (fun m => m.total_price) (stepCell_total p)]
    cases lastMatchIdx (effTotal p) 0 header <;> rfl
  · intro m i col hp
    simp [stepCell, hp]

/-- Claim C10 witness: with two description cells the mapping records the
rightmost one (index 2), and a description cell sets only that role. -/
theorem C10_last_column_wins_witness :
    (classifyFrom descA ⟨none, none, none, none⟩ 0
        ["description a", "qty", "description b"]).description =
        lastMatchIdx descA 0 ["description a", "qty", "description b"] ∧
      lastMatchIdx descA 0 ["description a", "qty", "description b"] = some 2 ∧
      stepCell descA ⟨none, none, none, none⟩ 7 "description" =
        { (⟨none, none, none, none⟩ : IdxMap) with description := some 7 } :=
  ⟨(C10_last_column_wins descA ["description a", "qty", "description b"]).1,
   by decide,
   (C10_last_column_wins descA ["description a", "qty", "description b"]).2.2.2.2
     ⟨none, none, none, none⟩ 7 "description" (by decide)⟩

end InvoiceExtractor
